import Mathlib

/-!
# Verification of the supavec web-scrape endpoint

A shallow embedding of `src/main.py`: the single `/web_scrape` FastAPI
handler `scrape_url`, its fire-and-forget usage logger `log_api_usage`,
and the pipeline it orchestrates (API-key authentication, page fetch,
storage upload, chunking, embedding, document and file inserts).

External collaborators (the Supabase client, the crawl4ai crawler, the
OpenAI embedder, Python's `uuid` parser) are modelled as oracles packaged
in an `Env` structure: each oracle yields either a raised exception
(`Except.error`) or a response that may itself carry an `error` field
(`Except.ok (some e)`), exactly the two failure shapes the Python code
distinguishes.  The handler is a pure function from the environment, the
`authorization` header and the request body to the returned JSON body
plus a trace of the external calls it performed, in order.
-/

namespace Supavec

/-- The request body: `{url, chunk_size (default 1500), chunk_overlap (default 20)}`. -/
structure ScrapeRequest where
  url : String
  chunk_size : Nat := 1500
  chunk_overlap : Nat := 20
deriving DecidableEq

/-- A row of the `api_keys` table as selected by the handler:
`team_id` may be absent (the code checks `response.data.get("team_id")`),
`user_id` is read with `response.data["user_id"]`. -/
structure ApiKeyRow where
  team_id : Option String
  user_id : String
deriving DecidableEq

/-- Chunk metadata, `{"source": data.url, "file_id": file_id}`. -/
structure Metadata where
  source : String
  file_id : String
deriving DecidableEq

/-- One chunk produced by the text splitter: its text and its metadata. -/
structure Chunk where
  text : String
  metadata : Metadata
deriving DecidableEq

/-- A `documents` row: `{content, metadata, embedding}`.  Embedding vectors
are opaque to the handler; they are modelled as integer lists. -/
structure DocumentData where
  content : String
  metadata : Metadata
  embedding : List Int
deriving DecidableEq

/-- A `files` row: `{file_id, type, file_name, team_id, storage_path}`. -/
structure FileData where
  file_id : String
  type : String
  file_name : String
  team_id : String
  storage_path : String
deriving DecidableEq

/-- An `api_usage_logs` row: `{user_id, endpoint, success, error}`. -/
structure UsageLog where
  user_id : Option String
  endpoint : String
  success : Bool
  error : Option String
deriving DecidableEq

/-! ## The chunker

Modelled from the spec: the repository calls the third-party
`RecursiveCharacterTextSplitter` (not part of `src/`), specified as a
deterministic recursive boundary-preference splitter — prefer splitting at
paragraph breaks, then line breaks, then word breaks, then raw character
boundaries, falling back only when a candidate segment still exceeds
`chunk_size`, and producing overlapping substrings governed by
`chunk_overlap`. -/

/-- Cut a character list into consecutive slices of at most `n` characters
(raw character boundaries, the last fallback level).  The first argument
after `n` is fuel, instantiated with the length of the list. -/
def slices (n : Nat) : Nat → List Char → List (List Char)
  | 0, _ => []
  | _, [] => []
  | fuel + 1, c :: cs =>
      (c :: cs.take (n - 1)) :: slices n fuel (cs.drop (n - 1))

/-- Split a character list at every occurrence of `sep`, keeping each
separator attached to the end of the piece before it (so that no content
is dropped).  Fuel-indexed; the accumulator holds the current piece
reversed. -/
def splitKeepAux (sep : List Char) : Nat → List Char → List Char → List (List Char)
  | 0, acc, s => [acc.reverse ++ s]
  | _ + 1, acc, [] => [acc.reverse]
  | fuel + 1, acc, c :: cs =>
      if !sep.isEmpty && sep.isPrefixOf (c :: cs) then
        (acc.reverse ++ sep) :: splitKeepAux sep fuel [] ((c :: cs).drop sep.length)
      else
        splitKeepAux sep fuel (c :: acc) cs

/-- Split at every occurrence of `sep`, separators kept. -/
def splitKeep (sep s : List Char) : List (List Char) :=
  splitKeepAux sep s.length [] s

/-- Recursive boundary-preference splitting: try the separators in order;
a piece that still exceeds `chunkSize` is re-split with the remaining
separators, and once no separator is left it is cut at raw character
boundaries. -/
def recursiveSplit (chunkSize : Nat) : List (List Char) → List Char → List (List Char)
  | [], s => slices chunkSize s.length s
  | sep :: rest, s =>
      (splitKeep sep s).flatMap fun p =>
        if p.length ≤ chunkSize then [p] else recursiveSplit chunkSize rest p

/-- The last `n` characters of a list. -/
def takeLast (n : Nat) (l : List Char) : List Char :=
  l.drop (l.length - n)

/-- Prefix every piece after the first with the last `ov` characters of
the piece before it (the overlap). -/
def applyOverlapAux (ov : Nat) : List Char → List (List Char) → List (List Char)
  | _, [] => []
  | prev, c :: cs => (takeLast ov prev ++ c) :: applyOverlapAux ov c cs

/-- Apply the overlap to a list of pieces. -/
def applyOverlap (ov : Nat) : List (List Char) → List (List Char)
  | [] => []
  | c :: cs => c :: applyOverlapAux ov c cs

/-- Modelled from the spec: the `RecursiveCharacterTextSplitter` used at
`src/main.py` lines 100–107 is not part of this repository; per the spec
it deterministically splits `text` into an ordered sequence of overlapping
substrings, preferring paragraph breaks, then line breaks, then word
breaks, then raw character boundaries. -/
def chunkText (chunkSize chunkOverlap : Nat) (text : String) : List String :=
  let pieces := recursiveSplit (max chunkSize 1)
    [['\n', '\n'], ['\n'], [' ']] text.data
  (applyOverlap chunkOverlap pieces).map fun l => String.mk l

/-- Model of `text_splitter.create_documents(texts=[markdown], metadatas=[...])`:
every chunk of the single input text is tagged with the single metadata
object `{"source": url, "file_id": file_id}`. -/
def createDocuments (chunkSize chunkOverlap : Nat) (text url fid : String) :
    List Chunk :=
  (chunkText chunkSize chunkOverlap text).map fun t => ⟨t, ⟨url, fid⟩⟩

/-! ## The environment: external collaborators as oracles

Each backend call can either raise (`Except.error msg`, the Python
`except Exception` path) or return a response whose `error` attribute may
be set (`Except.ok (some e)`, checked by
`if hasattr(resp, "error") and resp.error`). -/

/-- The outcome of one Supabase insert/upload call: raised exception, or a
response with an optional `error` field. -/
abbrev CallResult := Except String (Option String)

/-- The oracles for one request.  `embedResult` and `docInsertResult` are
indexed by the chunk's position in the loop, so an external service may
behave differently on successive calls. -/
structure Env where
  /-- Whether `uuid.UUID(tok)` succeeds (the header is a well-formed identifier). -/
  isValidUUID : String → Bool
  /-- The `api_keys` select: raised exception, or `response.data` (possibly no row). -/
  lookup : Except String (Option ApiKeyRow)
  /-- The crawler run: raised exception, or `result.markdown`. -/
  fetch : Except String String
  /-- The value of `str(uuid.uuid4())` for this request. -/
  freshUUID : String
  /-- The storage upload outcome. -/
  uploadResult : CallResult
  /-- The embedding call for the chunk at the given position. -/
  embedResult : Nat → String → Except String (List Int)
  /-- The `documents` insert outcome for the chunk at the given position. -/
  docInsertResult : Nat → CallResult
  /-- The `files` insert outcome. -/
  fileInsertResult : CallResult

deriving instance DecidableEq for Except

/-- One external call performed by the handler, with its outcome, in the
order the handler performed them. -/
inductive Event where
  | lookup (result : Except String (Option ApiKeyRow))
  | fetch (url : String) (result : Except String String)
  | upload (path : String) (content : String) (result : CallResult)
  | embedCall (text : String) (result : Except String (List Int))
  | insertDoc (doc : DocumentData) (result : CallResult)
  | insertFile (f : FileData) (result : CallResult)
  | spawnLog (u : UsageLog)
deriving DecidableEq

/-- The JSON body returned by the endpoint (always with transport status
HTTP 200): the success shape, the authentication-failure shape
`{"error", "status_code"}` produced from an `HTTPException`, or the
generic failure shape `{"error"}` produced from any other exception. -/
inductive Response where
  | success (markdown : String) (chunks : List Chunk) (file_id : String)
      (storage_path : String)
  | authError (error : String) (status_code : Nat)
  | genError (error : String)
deriving DecidableEq

/-- Model of `log_api_usage` (src/main.py lines 36–48): inserts the usage row and,
when the insert raises or its response carries an error field, only prints
a warning — it never propagates a failure.  Modelled as the list of lines
printed. -/
def log_api_usage (insertResult : CallResult) : List String :=
  match insertResult with
  | .ok none => []
  | .ok (some e) => ["Warning: Failed to log API usage: " ++ e]
  | .error e => ["Error logging API usage: " ++ e]

/-- The embed-and-insert loop over the chunks
(`for chunk in chunks: ...`, src/main.py lines 125–138) starting at
position `i`: returns the events performed and, when the loop aborted,
the message of the exception that escaped it. -/
def insertChunks (env : Env) : Nat → List Chunk → List Event × Option String
  | _, [] => ([], none)
  | i, c :: cs =>
      match env.embedResult i c.text with
      | .error e => ([.embedCall c.text (.error e)], some e)
      | .ok v =>
          let dd : DocumentData := ⟨c.text, c.metadata, v⟩
          match env.docInsertResult i with
          | .error e =>
              ([.embedCall c.text (.ok v), .insertDoc dd (.error e)], some e)
          | .ok (some err) =>
              ([.embedCall c.text (.ok v), .insertDoc dd (.ok (some err))],
                some ("Document insertion failed: " ++ err))
          | .ok none =>
              let r := insertChunks env (i + 1) cs
              (.embedCall c.text (.ok v) :: .insertDoc dd (.ok none) :: r.1, r.2)

/-- The `/web_scrape` handler (src/main.py lines 51–202) as a pure
function: given the oracles, the `authorization` header (absent, or its
value) and the parsed body, produce the returned JSON body and the trace
of external calls.  The usage-log dispatch (`log_api_usage.spawn`) is
recorded as a `spawnLog` event. -/
def scrape_url (env : Env) (auth : Option String) (data : ScrapeRequest) :
    Response × List Event :=
  match auth with
  | none =>
      (.authError "Authorization header is required" 401,
        [.spawnLog ⟨none, "/web_scrape", false,
          some "Authorization header is required"⟩])
  | some tok =>
      if tok = "" then
        (.authError "Authorization header is required" 401,
          [.spawnLog ⟨none, "/web_scrape", false,
            some "Authorization header is required"⟩])
      else if env.isValidUUID tok = false then
        (.authError "Invalid authorization header format" 401,
          [.spawnLog ⟨none, "/web_scrape", false,
            some "Invalid authorization header format"⟩])
      else
        match env.lookup with
        | .error e =>
            (.genError e,
              [.lookup (.error e),
                .spawnLog ⟨none, "/web_scrape", false, some e⟩])
        | .ok none =>
            (.authError "Invalid API key" 401,
              [.lookup (.ok none),
                .spawnLog ⟨none, "/web_scrape", false, some "Invalid API key"⟩])
        | .ok (some row) =>
            match row.team_id with
            | none =>
                (.authError "Invalid API key" 401,
                  [.lookup (.ok (some row)),
                    .spawnLog ⟨some row.user_id, "/web_scrape", false,
                      some "Invalid API key"⟩])
            | some team_id =>
                match env.fetch with
                | .error e =>
                    (.genError e,
                      [.lookup (.ok (some row)), .fetch data.url (.error e),
                        .spawnLog ⟨some row.user_id, "/web_scrape", false, some e⟩])
                | .ok markdown =>
                    let file_id := env.freshUUID
                    let file_name := file_id ++ ".txt"
                    let chunks := createDocuments data.chunk_size
                      data.chunk_overlap markdown data.url file_id
                    let path := team_id ++ "/" ++ file_name
                    match env.uploadResult with
                    | .error e =>
                        (.genError e,
                          [.lookup (.ok (some row)), .fetch data.url (.ok markdown),
                            .upload path markdown (.error e),
                            .spawnLog ⟨some row.user_id, "/web_scrape", false,
                              some e⟩])
                    | .ok (some err) =>
                        (.genError ("Storage upload failed: " ++ err),
                          [.lookup (.ok (some row)), .fetch data.url (.ok markdown),
                            .upload path markdown (.ok (some err)),
                            .spawnLog ⟨some row.user_id, "/web_scrape", false,
                              some ("Storage upload failed: " ++ err)⟩])
                    | .ok none =>
                        match insertChunks env 0 chunks with
                        | (evs, some e) =>
                            (.genError e,
                              .lookup (.ok (some row)) ::
                                .fetch data.url (.ok markdown) ::
                                .upload path markdown (.ok none) ::
                                (evs ++
                                  [.spawnLog ⟨some row.user_id, "/web_scrape",
                                    false, some e⟩]))
                        | (evs, none) =>
                            let fd : FileData :=
                              ⟨file_id, "web_scrape", file_name, team_id, path⟩
                            match env.fileInsertResult with
                            | .error e =>
                                (.genError e,
                                  .lookup (.ok (some row)) ::
                                    .fetch data.url (.ok markdown) ::
                                    .upload path markdown (.ok none) ::
                                    (evs ++
                                      [.insertFile fd (.error e),
                                        .spawnLog ⟨some row.user_id, "/web_scrape",
                                          false, some e⟩]))
                            | .ok (some err) =>
                                (.genError ("File data storage failed: " ++ err),
                                  .lookup (.ok (some row)) ::
                                    .fetch data.url (.ok markdown) ::
                                    .upload path markdown (.ok none) ::
                                    (evs ++
                                      [.insertFile fd (.ok (some err)),
                                        .spawnLog ⟨some row.user_id, "/web_scrape",
                                          false,
                                          some ("File data storage failed: " ++ err)⟩]))
                            | .ok none =>
                                (.success markdown chunks file_id path,
                                  .lookup (.ok (some row)) ::
                                    .fetch data.url (.ok markdown) ::
                                    .upload path markdown (.ok none) ::
                                    (evs ++
                                      [.insertFile fd (.ok none),
                                        .spawnLog ⟨some row.user_id, "/web_scrape",
                                          true, none⟩]))

/-! ## Observations on traces and responses -/

/-- Whether an event is a `documents` insert. -/
def Event.isInsertDoc : Event → Bool
  | .insertDoc _ _ => true
  | _ => false

/-- Whether an event is the `files` insert. -/
def Event.isInsertFile : Event → Bool
  | .insertFile _ _ => true
  | _ => false

/-- Whether an event is the storage upload. -/
def Event.isUpload : Event → Bool
  | .upload _ _ _ => true
  | _ => false

/-- Whether an event is an embedding call. -/
def Event.isEmbedCall : Event → Bool
  | .embedCall _ _ => true
  | _ => false

/-- Whether an event is the page fetch. -/
def Event.isFetch : Event → Bool
  | .fetch _ _ => true
  | _ => false

/-- Whether an event is the api-key lookup. -/
def Event.isLookup : Event → Bool
  | .lookup _ => true
  | _ => false

/-- Whether the response body has the success shape. -/
def isSuccess : Response → Bool
  | .success _ _ _ _ => true
  | _ => false

/-- The usage-log records dispatched in a trace, in order. -/
def logsOf (tr : List Event) : List UsageLog :=
  tr.filterMap fun e =>
    match e with
    | .spawnLog u => some u
    | _ => none

/-- The `documents` rows actually persisted in a trace: the inserts whose
call neither raised nor returned an error field. -/
def persistedDocs (tr : List Event) : List DocumentData :=
  tr.filterMap fun e =>
    match e with
    | .insertDoc d (.ok none) => some d
    | _ => none

/-- The write events of a trace: storage uploads, document inserts and
file inserts. -/
def writesOf (tr : List Event) : List Event :=
  tr.filter fun e => e.isUpload || e.isInsertDoc || e.isInsertFile

/-- Ordering observation `allBefore p q tr`: in `tr`, every event satisfying `p` occurs before
every event satisfying `q` (equivalently, no `p`-event follows a
`q`-event). -/
def allBefore (p q : Event → Bool) : List Event → Bool
  | [] => true
  | e :: tr => (!q e || !tr.any p) && allBefore p q tr

/-- The embedding vector the environment yields for the chunk at position
`i` (arbitrary when the call fails). -/
def vecOf (env : Env) (i : Nat) (c : Chunk) : List Int :=
  match env.embedResult i c.text with
  | .ok v => v
  | .error _ => []

/-- The `documents` rows the loop builds for the given chunks starting at
position `i`. -/
def docsOf (env : Env) : Nat → List Chunk → List DocumentData
  | _, [] => []
  | i, c :: cs => ⟨c.text, c.metadata, vecOf env i c⟩ :: docsOf env (i + 1) cs

/-- The events of a fully successful embed-and-insert loop over the given
chunks starting at position `i`: for each chunk, its embedding call then
its document insert. -/
def loopEvents (env : Env) : Nat → List Chunk → List Event
  | _, [] => []
  | i, c :: cs =>
      .embedCall c.text (env.embedResult i c.text) ::
        .insertDoc ⟨c.text, c.metadata, vecOf env i c⟩ (.ok none) ::
        loopEvents env (i + 1) cs

/-- The chunk at position `i` goes through cleanly: its embedding call
succeeds and its document insert succeeds with no error field. -/
def chunkOKb (env : Env) (i : Nat) (c : Chunk) : Bool :=
  (match env.embedResult i c.text with
    | .ok _ => true
    | .error _ => false) &&
  (match env.docInsertResult i with
    | .ok none => true
    | _ => false)

/-- On every failure path before the lookup returns a data row the handler
logs `user_id = None`; once the lookup has returned a row, it logs that
row's `user_id` (the `"response" in locals() and response.data` guard of
the two `except` blocks). -/
def loggedUserId (env : Env) (auth : Option String) : Option String :=
  match auth with
  | none => none
  | some tok =>
      if tok = "" then none
      else if env.isValidUUID tok = false then none
      else
        match env.lookup with
        | .ok (some row) => some row.user_id
        | _ => none

/-- The authentication-failure shape: a `status_code` field appears only
on the three `HTTPException` bodies, always with value 401. -/
def authCodeOK : Response → Bool
  | .authError e c =>
      c == 401 &&
        (e == "Authorization header is required" ||
          e == "Invalid authorization header format" ||
          e == "Invalid API key")
  | _ => true

/-- Every event of a trace threads the single `file_id`: the upload path,
every document's `metadata.file_id`, and the file row's `file_id`,
`file_name` and `storage_path`. -/
def eventFileIdOK (team fid : String) : Event → Bool
  | .upload p _ _ => p == team ++ "/" ++ (fid ++ ".txt")
  | .insertDoc d _ => d.metadata.file_id == fid
  | .insertFile f _ =>
      f.file_id == fid && f.file_name == fid ++ ".txt" &&
        f.storage_path == team ++ "/" ++ (fid ++ ".txt")
  | _ => true

/-! ## Concrete environments used as witnesses -/

/-- A key row with a team association. -/
def sampleRow : ApiKeyRow := ⟨some "team-1", "user-1"⟩

/-- An environment in which every external call succeeds. -/
def envOK : Env :=
  ⟨fun _ => true, .ok (some sampleRow), .ok "hello", "fid-1", .ok none,
    fun i _ => .ok [Int.ofNat i], fun _ => .ok none, .ok none⟩

/-- An environment whose api-key lookup returns no row. -/
def envNoKey : Env :=
  ⟨fun _ => true, .ok none, .ok "hello", "fid-1", .ok none,
    fun i _ => .ok [Int.ofNat i], fun _ => .ok none, .ok none⟩

/-- An environment whose page fetch raises. -/
def envFetchFail : Env :=
  ⟨fun _ => true, .ok (some sampleRow), .error "net down", "fid-1", .ok none,
    fun i _ => .ok [Int.ofNat i], fun _ => .ok none, .ok none⟩

/-- An environment fetching a text that splits into five chunks at
`chunk_size = 3`, whose embedding provider fails on the third chunk. -/
def envEmbedFail3 : Env :=
  ⟨fun _ => true, .ok (some sampleRow), .ok "aa bb cc dd ee", "fid-1", .ok none,
    fun i _ => if i == 2 then .error "rate limited" else .ok [Int.ofNat i],
    fun _ => .ok none, .ok none⟩

/-- A request with the default chunking parameters. -/
def reqW : ScrapeRequest := ⟨"https://example.com", 1500, 20⟩

/-- A request with `chunk_size = 3`, `chunk_overlap = 0`. -/
def req3 : ScrapeRequest := ⟨"https://example.com", 3, 0⟩

/-! ## Loop lemmas -/

/-- A fully successful loop performs exactly the alternating
embed/insert events. -/
lemma insertChunks_ok_events (env : Env) :
    ∀ (cs : List Chunk) (i : Nat), (insertChunks env i cs).2 = none →
      (insertChunks env i cs).1 = loopEvents env i cs := by
  intro cs
  induction cs with
  | nil => intro i _; simp [insertChunks, loopEvents]
  | cons c cs ih =>
      intro i h
      rcases he : env.embedResult i c.text with e | v
      · simp [insertChunks, he] at h
      · rcases hd : env.docInsertResult i with e | r
        · simp [insertChunks, he, hd] at h
        · rcases r with _ | err
          · simp only [insertChunks, he, hd] at h ⊢
            simp [loopEvents, vecOf, he, ih i.succ h]
          · simp [insertChunks, he, hd] at h

/-- The loop only performs embedding calls and document inserts. -/
lemma insertChunks_events_shape (env : Env) :
    ∀ (cs : List Chunk) (i : Nat),
      ((insertChunks env i cs).1).all
        (fun e => e.isEmbedCall || e.isInsertDoc) = true := by
  intro cs
  induction cs with
  | nil => intro i; simp [insertChunks]
  | cons c cs ih =>
      intro i
      rcases he : env.embedResult i c.text with e | v
      · simp [insertChunks, he, Event.isEmbedCall]
      · rcases hd : env.docInsertResult i with e | r
        · simp [insertChunks, he, hd, Event.isEmbedCall, Event.isInsertDoc]
        · rcases r with _ | err
          · simp only [insertChunks, he, hd]
            simpa [Event.isEmbedCall, Event.isInsertDoc] using ih i.succ
          · simp [insertChunks, he, hd, Event.isEmbedCall, Event.isInsertDoc]

/-- The loop dispatches no usage log. -/
lemma logsOf_insertChunks (env : Env) (cs : List Chunk) (i : Nat) :
    logsOf (insertChunks env i cs).1 = [] := by
  induction cs generalizing i with
  | nil => simp [insertChunks, logsOf]
  | cons c cs ih =>
      rcases he : env.embedResult i c.text with e | v
      · simp [insertChunks, he, logsOf]
      · rcases hd : env.docInsertResult i with e | r
        · simp [insertChunks, he, hd, logsOf]
        · rcases r with _ | err
          · simp only [insertChunks, he, hd]
            simpa [logsOf] using ih (i + 1)
          · simp [insertChunks, he, hd, logsOf]

/-- A loop that runs cleanly through `pre` and hits a failing chunk `c`
aborts with some exception, having persisted exactly the documents of
`pre` — none of `c :: post`. -/
lemma insertChunks_failAt (env : Env) :
    ∀ (pre : List Chunk) (c : Chunk) (post : List Chunk) (i : Nat),
      (∀ j (hj : j < pre.length), chunkOKb env (i + j) (pre.get ⟨j, hj⟩) = true) →
      chunkOKb env (i + pre.length) c = false →
      (∃ msg, (insertChunks env i (pre ++ c :: post)).2 = some msg) ∧
        persistedDocs (insertChunks env i (pre ++ c :: post)).1 = docsOf env i pre := by
  intro pre
  induction pre with
  | nil =>
      intro c post i _ hfail
      rcases he : env.embedResult i c.text with e | v
      · simp [insertChunks, he, persistedDocs, docsOf]
      · rcases hd : env.docInsertResult i with e | r
        · simp [insertChunks, he, hd, persistedDocs, docsOf]
        · rcases r with _ | err
          · exfalso
            simp [chunkOKb, he, hd] at hfail
          · simp [insertChunks, he, hd, persistedDocs, docsOf]
  | cons p pre ih =>
      intro c post i hok hfail
      have h0 : chunkOKb env i p = true := by simpa using hok 0 (by simp)
      rcases he : env.embedResult i p.text with e | v
      · exfalso; simp [chunkOKb, he] at h0
      · rcases hd : env.docInsertResult i with e | r
        · exfalso; simp [chunkOKb, he, hd] at h0
        · rcases r with _ | err
          · have hok' : ∀ j (hj : j < pre.length),
                chunkOKb env (i + 1 + j) (pre.get ⟨j, hj⟩) = true := by
              intro j hj
              have heq : i + 1 + j = i + (j + 1) := by omega
              rw [heq]
              simpa using hok (j + 1) (by simpa using Nat.succ_lt_succ hj)
            have hfail' : chunkOKb env (i + 1 + pre.length) c = false := by
              have heq : i + 1 + pre.length = i + (p :: pre).length := by
                simp only [List.length_cons]
                omega
              rw [heq]
              exact hfail
            obtain ⟨⟨msg, hmsg⟩, hdocs⟩ := ih c post (i + 1) hok' hfail'
            constructor
            · refine ⟨msg, ?_⟩
              simp only [List.cons_append, insertChunks, he, hd]
              exact hmsg
            · simp only [List.cons_append, insertChunks, he, hd, docsOf, vecOf]
              simpa [persistedDocs] using hdocs
          · exfalso; simp [chunkOKb, he, hd] at h0

/-- The success path: when the token is non-empty and well formed, the
lookup yields a row with a team, the fetch, upload, every chunk and the
file insert succeed, the handler returns the success body and performs
exactly the pipeline events in order — lookup, fetch, upload, the
per-chunk embed/insert pairs, the file insert, and the usage-log
dispatch. -/
lemma scrape_url_success_eq (env : Env) (tok : String) (data : ScrapeRequest)
    (row : ApiKeyRow) (team_id markdown : String)
    (htok : tok ≠ "") (hvalid : env.isValidUUID tok = true)
    (hlk : env.lookup = .ok (some row)) (hteam : row.team_id = some team_id)
    (hfetch : env.fetch = .ok markdown) (hup : env.uploadResult = .ok none)
    (hloop : (insertChunks env 0 (createDocuments data.chunk_size
      data.chunk_overlap markdown data.url env.freshUUID)).2 = none)
    (hfile : env.fileInsertResult = .ok none) :
    scrape_url env (some tok) data =
      (.success markdown
        (createDocuments data.chunk_size data.chunk_overlap markdown data.url
          env.freshUUID)
        env.freshUUID (team_id ++ "/" ++ (env.freshUUID ++ ".txt")),
      .lookup (.ok (some row)) :: .fetch data.url (.ok markdown) ::
        .upload (team_id ++ "/" ++ (env.freshUUID ++ ".txt")) markdown (.ok none) ::
        (loopEvents env 0 (createDocuments data.chunk_size data.chunk_overlap
            markdown data.url env.freshUUID) ++
          [.insertFile ⟨env.freshUUID, "web_scrape", env.freshUUID ++ ".txt",
              team_id, team_id ++ "/" ++ (env.freshUUID ++ ".txt")⟩ (.ok none),
            .spawnLog ⟨some row.user_id, "/web_scrape", true, none⟩])) := by
  have hck : insertChunks env 0 (createDocuments data.chunk_size
      data.chunk_overlap markdown data.url env.freshUUID) =
      ((insertChunks env 0 (createDocuments data.chunk_size data.chunk_overlap
        markdown data.url env.freshUUID)).1, none) := by
    rw [← hloop]
  rw [show (insertChunks env 0 (createDocuments data.chunk_size
      data.chunk_overlap markdown data.url env.freshUUID)).1 =
      loopEvents env 0 (createDocuments data.chunk_size data.chunk_overlap
        markdown data.url env.freshUUID) from
    insertChunks_ok_events env _ 0 hloop] at hck
  simp only [scrape_url, if_neg htok, hvalid, hlk, hteam, hfetch, hup, hfile, hck]
  simp

/-- Exhaustive branch analysis of the handler: on every path the response
shape carries a `status_code` only for the three authentication failures
(always 401), exactly one usage log is dispatched, its endpoint is
`/web_scrape`, its success flag mirrors the response shape, and its
`user_id` is the looked-up user when the lookup returned a row on this
path and `None` otherwise. -/
lemma scrape_url_master (env : Env) (auth : Option String) (data : ScrapeRequest) :
    authCodeOK (scrape_url env auth data).1 = true ∧
      ∃ u : UsageLog,
        logsOf (scrape_url env auth data).2 = [u] ∧
        u.endpoint = "/web_scrape" ∧
        u.success = isSuccess (scrape_url env auth data).1 ∧
        u.user_id = loggedUserId env auth := by
  rcases auth with _ | tok
  · simp [scrape_url, logsOf, authCodeOK, loggedUserId, isSuccess]
  · by_cases htok : tok = ""
    · subst htok
      simp [scrape_url, logsOf, authCodeOK, loggedUserId, isSuccess]
    · rcases hv : env.isValidUUID tok with _ | _
      · simp [scrape_url, htok, hv, logsOf, authCodeOK, loggedUserId, isSuccess]
      · rcases hlk : env.lookup with e | odata
        · simp [scrape_url, htok, hv, hlk, logsOf, authCodeOK, loggedUserId,
            isSuccess]
        · rcases odata with _ | row
          · simp [scrape_url, htok, hv, hlk, logsOf, authCodeOK, loggedUserId,
              isSuccess]
          · rcases hteam : row.team_id with _ | team
            · simp [scrape_url, htok, hv, hlk, hteam, logsOf, authCodeOK,
                loggedUserId, isSuccess]
            · rcases hf : env.fetch with e | md
              · simp [scrape_url, htok, hv, hlk, hteam, hf, logsOf, authCodeOK,
                  loggedUserId, isSuccess]
              · rcases hup : env.uploadResult with e | oerr
                · simp [scrape_url, htok, hv, hlk, hteam, hf, hup, logsOf,
                    authCodeOK, loggedUserId, isSuccess]
                · rcases oerr with _ | err
                  · rcases hic : insertChunks env 0 (createDocuments
                        data.chunk_size data.chunk_overlap md data.url
                        env.freshUUID) with ⟨evs, r⟩
                    have hlogs := logsOf_insertChunks env (createDocuments
                      data.chunk_size data.chunk_overlap md data.url
                      env.freshUUID) 0
                    rw [hic] at hlogs
                    simp only [logsOf] at hlogs
                    rcases r with _ | e
                    · rcases hfi : env.fileInsertResult with e | oerr2
                      · simp [scrape_url, htok, hv, hlk, hteam, hf, hup, hic,
                          hfi, logsOf, hlogs, authCodeOK, loggedUserId, isSuccess]
                      · rcases oerr2 with _ | err2
                        · simp [scrape_url, htok, hv, hlk, hteam, hf, hup, hic,
                            hfi, logsOf, hlogs, authCodeOK, loggedUserId,
                            isSuccess]
                        · simp [scrape_url, htok, hv, hlk, hteam, hf, hup, hic,
                            hfi, logsOf, hlogs, authCodeOK, loggedUserId,
                            isSuccess]
                    · simp [scrape_url, htok, hv, hlk, hteam, hf, hup, hic,
                        logsOf, hlogs, authCodeOK, loggedUserId, isSuccess]
                  · simp [scrape_url, htok, hv, hlk, hteam, hf, hup, logsOf,
                      authCodeOK, loggedUserId, isSuccess]

/-- Every chunk built by `create_documents` carries the single metadata
object, in particular the request's `file_id`. -/
lemma createDocuments_file_id (cs co : Nat) (text url fid : String) :
    ∀ c ∈ createDocuments cs co text url fid, c.metadata.file_id = fid := by
  intro c hc
  simp only [createDocuments, List.mem_map] at hc
  obtain ⟨t, _, rfl⟩ := hc
  rfl

/-- The successful loop's events consist only of embedding calls and
document inserts. -/
lemma loopEvents_shape (env : Env) :
    ∀ (cs : List Chunk) (i : Nat),
      ((loopEvents env i cs).all (fun e => e.isEmbedCall || e.isInsertDoc)) = true := by
  intro cs
  induction cs with
  | nil => intro i; simp [loopEvents]
  | cons c cs ih =>
      intro i
      simp only [loopEvents, List.all_cons]
      simpa [Event.isEmbedCall, Event.isInsertDoc] using ih (i + 1)

/-- When every chunk carries `fid` in its metadata, every event of the
successful loop threads `fid`. -/
lemma loopEvents_fileIdOK (env : Env) (team fid : String) :
    ∀ (cs : List Chunk) (i : Nat), (∀ c ∈ cs, c.metadata.file_id = fid) →
      ((loopEvents env i cs).all (eventFileIdOK team fid)) = true := by
  intro cs
  induction cs with
  | nil => intro i _; simp [loopEvents]
  | cons c cs ih =>
      intro i h
      have hc : c.metadata.file_id = fid := h c (by simp)
      simp only [loopEvents, List.all_cons]
      simp [eventFileIdOK, hc, ih (i + 1) (fun x hx => h x (by simp [hx]))]

/-! ## Claim theorems -/

/-- C2: for every request carrying a well-formed identifier token that has
no matching record in the API-key store, or whose matched record lacks a
team association, the handler returns exactly the body
`{"error": "Invalid API key", "status_code": 401}`. -/
theorem invalid_api_key_response (env : Env) (tok : String) (data : ScrapeRequest)
    (htok : tok ≠ "") (hvalid : env.isValidUUID tok = true)
    (hlk : env.lookup = .ok none ∨
      ∃ row, env.lookup = .ok (some row) ∧ row.team_id = none) :
    (scrape_url env (some tok) data).1 = .authError "Invalid API key" 401 := by
  rcases hlk with h | ⟨row, h, hteam⟩
  · simp [scrape_url, htok, hvalid, h]
  · simp [scrape_url, htok, hvalid, h, hteam]

/-- Witness for C2: a concrete valid token absent from the key store. -/
theorem invalid_api_key_response_witness :
    (scrape_url envNoKey (some "k") reqW).1 = .authError "Invalid API key" 401 :=
  invalid_api_key_response envNoKey "k" reqW (by decide) rfl (Or.inl rfl)

/-- C4: when the page fetch fails, the response body is the generic
`{"error": <message>}` shape — carrying no `file_id` — and the trace shows
no storage upload, no `files` insert, and no `documents` insert: the only
events are the lookup, the failed fetch, and the usage-log dispatch. -/
theorem fetch_failure_no_writes (env : Env) (tok : String) (data : ScrapeRequest)
    (row : ApiKeyRow) (team e : String)
    (htok : tok ≠ "") (hvalid : env.isValidUUID tok = true)
    (hlk : env.lookup = .ok (some row)) (hteam : row.team_id = some team)
    (hfetch : env.fetch = .error e) :
    scrape_url env (some tok) data =
      (.genError e,
        [.lookup (.ok (some row)), .fetch data.url (.error e),
          .spawnLog ⟨some row.user_id, "/web_scrape", false, some e⟩]) ∧
    writesOf (scrape_url env (some tok) data).2 = [] := by
  have h1 : scrape_url env (some tok) data =
      (.genError e,
        [.lookup (.ok (some row)), .fetch data.url (.error e),
          .spawnLog ⟨some row.user_id, "/web_scrape", false, some e⟩]) := by
    simp [scrape_url, htok, hvalid, hlk, hteam, hfetch]
  refine ⟨h1, ?_⟩
  rw [h1]
  simp [writesOf, Event.isUpload, Event.isInsertDoc, Event.isInsertFile]

/-- Witness for C4: a concrete environment whose crawler raises. -/
theorem fetch_failure_no_writes_witness :
    scrape_url envFetchFail (some "k") reqW =
      (.genError "net down",
        [.lookup (.ok (some sampleRow)),
          .fetch "https://example.com" (.error "net down"),
          .spawnLog ⟨some "user-1", "/web_scrape", false, some "net down"⟩]) ∧
    writesOf (scrape_url envFetchFail (some "k") reqW).2 = [] :=
  fetch_failure_no_writes envFetchFail "k" reqW sampleRow "team-1" "net down"
    (by decide) rfl rfl rfl rfl

/-- C6: the handler is a total function into JSON bodies — the endpoint
answers HTTP 200 with a body on every path, never propagating an
exception — and a `status_code` field occurs only in the three
authentication-failure bodies, always with value 401; every other failure
body is the bare `{"error": <message>}` shape. -/
theorem response_shape_total (env : Env) (auth : Option String)
    (data : ScrapeRequest) :
    authCodeOK (scrape_url env auth data).1 = true :=
  (scrape_url_master env auth data).1

/-- C7: a request lacking an Authorization header gets exactly the body
`{"error": "Authorization header is required", "status_code": 401}`, and
the trace holds no fetch and no write — only the usage-log dispatch. -/
theorem missing_auth_header_response (env : Env) (data : ScrapeRequest) :
    scrape_url env none data =
      (.authError "Authorization header is required" 401,
        [.spawnLog ⟨none, "/web_scrape", false,
          some "Authorization header is required"⟩]) ∧
    writesOf (scrape_url env none data).2 = [] ∧
    ((scrape_url env none data).2).all (fun e => !e.isFetch) = true :=
  ⟨rfl, rfl, rfl⟩

/-- C8: on every path exactly one usage-log record is dispatched, for
endpoint `/web_scrape`, with `success` true exactly when the response has
the success shape; and the logger itself, whatever its insert's outcome,
produces at most a printed line — it returns normally and surfaces
nothing to the caller. -/
theorem usage_log_exactly_once (env : Env) (auth : Option String)
    (data : ScrapeRequest) :
    (∃ u : UsageLog,
      logsOf (scrape_url env auth data).2 = [u] ∧
      u.endpoint = "/web_scrape" ∧
      u.success = isSuccess (scrape_url env auth data).1) ∧
    ∀ r : CallResult, log_api_usage r = [] ∨
      ∃ line, log_api_usage r = [line] := by
  obtain ⟨-, u, hlogs, hend, hsucc, -⟩ := scrape_url_master env auth data
  refine ⟨⟨u, hlogs, hend, hsucc⟩, ?_⟩
  intro r
  rcases r with e | o
  · exact Or.inr ⟨_, rfl⟩
  · rcases o with _ | e
    · exact Or.inl rfl
    · exact Or.inr ⟨_, rfl⟩

/-- C9: chunking is deterministic — the chunker is a function of the text
and the two parameters alone: two invocations on the same inputs yield
the same ordered chunk sequence, and the chunk texts do not depend on the
metadata inputs (`url`, `file_id`) at all. -/
theorem chunking_deterministic (cs co : Nat) (text url fid : String) :
    createDocuments cs co text url fid = createDocuments cs co text url fid ∧
    (createDocuments cs co text url fid).map (fun c => c.text) =
      chunkText cs co text :=
  ⟨rfl, by
    simp only [createDocuments, List.map_map]
    exact List.map_id _⟩

/-- C10: the usage-log record of a failed request carries `user_id = None`
exactly when the failure occurred before the API-key lookup returned a
data row (missing or malformed header, lookup exception, or no row), and
the looked-up `user_id` otherwise. -/
theorem failure_log_user_id (env : Env) (auth : Option String)
    (data : ScrapeRequest) (u : UsageLog)
    (hu : u ∈ logsOf (scrape_url env auth data).2)
    (_hfail : isSuccess (scrape_url env auth data).1 = false) :
    u.user_id = loggedUserId env auth := by
  obtain ⟨-, u', hlogs, -, -, huid⟩ := scrape_url_master env auth data
  rw [hlogs] at hu
  simp only [List.mem_singleton] at hu
  subst hu
  exact huid

/-- Witness for C10: a fetch failure after a successful lookup logs the
looked-up user. -/
theorem failure_log_user_id_witness :
    (⟨some "user-1", "/web_scrape", false, some "net down"⟩ : UsageLog).user_id =
      loggedUserId envFetchFail (some "k") :=
  failure_log_user_id envFetchFail (some "k") reqW
    ⟨some "user-1", "/web_scrape", false, some "net down"⟩ (by decide) (by decide)

/-- C1 (amended): within a successful request the external calls happen
in the order lookup, fetch, upload, then for each chunk in order its
embedding call immediately followed by its Document insert, then the File
insert, then the usage-log dispatch — the File record is inserted after
every chunk's Document record, not before. -/
theorem pipeline_order_success (env : Env) (tok : String) (data : ScrapeRequest)
    (row : ApiKeyRow) (team markdown : String)
    (htok : tok ≠ "") (hvalid : env.isValidUUID tok = true)
    (hlk : env.lookup = .ok (some row)) (hteam : row.team_id = some team)
    (hfetch : env.fetch = .ok markdown) (hup : env.uploadResult = .ok none)
    (hloop : (insertChunks env 0 (createDocuments data.chunk_size
      data.chunk_overlap markdown data.url env.freshUUID)).2 = none)
    (hfile : env.fileInsertResult = .ok none) :
    (scrape_url env (some tok) data).2 =
      .lookup (.ok (some row)) :: .fetch data.url (.ok markdown) ::
        .upload (team ++ "/" ++ (env.freshUUID ++ ".txt")) markdown (.ok none) ::
        (loopEvents env 0 (createDocuments data.chunk_size data.chunk_overlap
            markdown data.url env.freshUUID) ++
          [.insertFile ⟨env.freshUUID, "web_scrape", env.freshUUID ++ ".txt",
              team, team ++ "/" ++ (env.freshUUID ++ ".txt")⟩ (.ok none),
            .spawnLog ⟨some row.user_id, "/web_scrape", true, none⟩]) ∧
    ((loopEvents env 0 (createDocuments data.chunk_size data.chunk_overlap
        markdown data.url env.freshUUID)).all
      (fun e => e.isEmbedCall || e.isInsertDoc)) = true := by
  have h := scrape_url_success_eq env tok data row team markdown htok hvalid
    hlk hteam hfetch hup hloop hfile
  exact ⟨by rw [h], loopEvents_shape env _ 0⟩

/-- Witness for C1 (amended): the fully successful concrete environment. -/
theorem pipeline_order_success_witness :
    (scrape_url envOK (some "k") reqW).2 =
      .lookup (.ok (some sampleRow)) ::
        .fetch "https://example.com" (.ok "hello") ::
        .upload ("team-1" ++ "/" ++ ("fid-1" ++ ".txt")) "hello" (.ok none) ::
        (loopEvents envOK 0 (createDocuments 1500 20 "hello"
            "https://example.com" "fid-1") ++
          [.insertFile ⟨"fid-1", "web_scrape", "fid-1" ++ ".txt", "team-1",
              "team-1" ++ "/" ++ ("fid-1" ++ ".txt")⟩ (.ok none),
            .spawnLog ⟨some "user-1", "/web_scrape", true, none⟩]) ∧
    ((loopEvents envOK 0 (createDocuments 1500 20 "hello"
        "https://example.com" "fid-1")).all
      (fun e => e.isEmbedCall || e.isInsertDoc)) = true :=
  pipeline_order_success envOK "k" reqW sampleRow "team-1" "hello"
    (by decide) rfl rfl rfl rfl rfl rfl rfl

/-- Counterexample to C1 as stated: in a concrete successful request, the
File record insert does not precede the chunk's Document record insert —
the Document insert comes first. -/
theorem file_insert_before_docs_refuted :
    isSuccess (scrape_url envOK (some "k") reqW).1 = true ∧
    allBefore Event.isInsertFile Event.isInsertDoc
      (scrape_url envOK (some "k") reqW).2 = false :=
  ⟨rfl, rfl⟩

/-- C5: on a successful request, a single `file_id` — the freshly drawn
UUID — appears as the response's top-level `file_id`, in the storage path
`{team_id}/{file_id}.txt`, in every chunk's `metadata.file_id` (both in
the response's chunks and in every persisted Document record), and in the
File record's `file_id`, `file_name` and `storage_path`. -/
theorem file_id_threading (env : Env) (tok : String) (data : ScrapeRequest)
    (row : ApiKeyRow) (team markdown : String)
    (htok : tok ≠ "") (hvalid : env.isValidUUID tok = true)
    (hlk : env.lookup = .ok (some row)) (hteam : row.team_id = some team)
    (hfetch : env.fetch = .ok markdown) (hup : env.uploadResult = .ok none)
    (hloop : (insertChunks env 0 (createDocuments data.chunk_size
      data.chunk_overlap markdown data.url env.freshUUID)).2 = none)
    (hfile : env.fileInsertResult = .ok none) :
    (scrape_url env (some tok) data).1 =
      .success markdown
        (createDocuments data.chunk_size data.chunk_overlap markdown data.url
          env.freshUUID)
        env.freshUUID (team ++ "/" ++ (env.freshUUID ++ ".txt")) ∧
    ((createDocuments data.chunk_size data.chunk_overlap markdown data.url
        env.freshUUID).all
      (fun c => c.metadata.file_id == env.freshUUID)) = true ∧
    (((scrape_url env (some tok) data).2).all
      (eventFileIdOK team env.freshUUID)) = true := by
  have h := scrape_url_success_eq env tok data row team markdown htok hvalid
    hlk hteam hfetch hup hloop hfile
  refine ⟨by rw [h], ?_, ?_⟩
  · rw [List.all_eq_true]
    intro c hc
    have hfid := createDocuments_file_id data.chunk_size data.chunk_overlap
      markdown data.url env.freshUUID c hc
    simp [hfid]
  · rw [h]
    have h1 := loopEvents_fileIdOK env team env.freshUUID
      (createDocuments data.chunk_size data.chunk_overlap markdown data.url
        env.freshUUID) 0
      (createDocuments_file_id data.chunk_size data.chunk_overlap markdown
        data.url env.freshUUID)
    simp [eventFileIdOK, h1]

/-- Witness for C5: the fully successful concrete environment. -/
theorem file_id_threading_witness :
    (scrape_url envOK (some "k") reqW).1 =
      .success "hello"
        (createDocuments 1500 20 "hello" "https://example.com" "fid-1")
        "fid-1" ("team-1" ++ "/" ++ ("fid-1" ++ ".txt")) ∧
    ((createDocuments 1500 20 "hello" "https://example.com" "fid-1").all
      (fun c => c.metadata.file_id == "fid-1")) = true ∧
    (((scrape_url envOK (some "k") reqW).2).all
      (eventFileIdOK "team-1" "fid-1")) = true :=
  file_id_threading envOK "k" reqW sampleRow "team-1" "hello"
    (by decide) rfl rfl rfl rfl rfl rfl rfl

/-- C3: when the pipeline reaches the chunk loop and the embedding call or
the `documents` insert fails on the chunk after a non-empty clean prefix
`pre`, the response body is the generic `{"error": <message>}` shape, the
Document records of the prefix chunks have been persisted, and no
Document record for the failing chunk or any later chunk is written. -/
theorem truncated_persistence_on_chunk_failure (env : Env) (tok : String)
    (data : ScrapeRequest) (row : ApiKeyRow) (team markdown : String)
    (pre : List Chunk) (c : Chunk) (post : List Chunk)
    (htok : tok ≠ "") (hvalid : env.isValidUUID tok = true)
    (hlk : env.lookup = .ok (some row)) (hteam : row.team_id = some team)
    (hfetch : env.fetch = .ok markdown) (hup : env.uploadResult = .ok none)
    (hchunks : createDocuments data.chunk_size data.chunk_overlap markdown
      data.url env.freshUUID = pre ++ c :: post)
    (_hpre : 0 < pre.length)
    (hok : ∀ j (hj : j < pre.length),
      chunkOKb env j (pre.get ⟨j, hj⟩) = true)
    (hfail : chunkOKb env pre.length c = false) :
    (∃ msg, (scrape_url env (some tok) data).1 = .genError msg) ∧
    persistedDocs (scrape_url env (some tok) data).2 = docsOf env 0 pre := by
  have hok0 : ∀ j (hj : j < pre.length),
      chunkOKb env (0 + j) (pre.get ⟨j, hj⟩) = true := by
    intro j hj
    simpa using hok j hj
  have hfail0 : chunkOKb env (0 + pre.length) c = false := by simpa using hfail
  obtain ⟨⟨msg, hmsg⟩, hdocs⟩ := insertChunks_failAt env pre c post 0 hok0 hfail0
  rcases hic : insertChunks env 0 (pre ++ c :: post) with ⟨evs, r⟩
  rw [hic] at hmsg hdocs
  simp only at hmsg hdocs
  subst hmsg
  have hrun : scrape_url env (some tok) data =
      (.genError msg,
        .lookup (.ok (some row)) :: .fetch data.url (.ok markdown) ::
          .upload (team ++ "/" ++ (env.freshUUID ++ ".txt")) markdown (.ok none) ::
          (evs ++
            [.spawnLog ⟨some row.user_id, "/web_scrape", false, some msg⟩])) := by
    simp only [scrape_url, if_neg htok, hvalid, hlk, hteam, hfetch, hup,
      hchunks, hic]
    simp
  rw [hrun]
  refine ⟨⟨msg, rfl⟩, ?_⟩
  simp only [persistedDocs, List.filterMap_cons, List.filterMap_append] at hdocs ⊢
  simp [hdocs]

/-- Witness for C3: a text splitting into five chunks whose embedding
provider fails on the third; the first two Document records are
persisted, none after. -/
theorem truncated_persistence_witness :
    (∃ msg, (scrape_url envEmbedFail3 (some "k") req3).1 = .genError msg) ∧
    persistedDocs (scrape_url envEmbedFail3 (some "k") req3).2 =
      docsOf envEmbedFail3 0
        [⟨"aa ", ⟨"https://example.com", "fid-1"⟩⟩,
          ⟨"bb ", ⟨"https://example.com", "fid-1"⟩⟩] :=
  truncated_persistence_on_chunk_failure envEmbedFail3 "k" req3 sampleRow
    "team-1" "aa bb cc dd ee"
    [⟨"aa ", ⟨"https://example.com", "fid-1"⟩⟩,
      ⟨"bb ", ⟨"https://example.com", "fid-1"⟩⟩]
    ⟨"cc ", ⟨"https://example.com", "fid-1"⟩⟩
    [⟨"dd ", ⟨"https://example.com", "fid-1"⟩⟩,
      ⟨"ee", ⟨"https://example.com", "fid-1"⟩⟩]
    (by decide) rfl rfl rfl rfl rfl (by decide) (by decide) (by decide)
    (by decide)

end Supavec
